import Mathlib

/-!
# Verification of the pixonixsdf mesh-generation core

A shallow embedding, in Lean 4, of the C++ signed-distance-field library
under `src/SDF.Cpp`.  C++ `double` values are modelled as real numbers,
`std::vector` as `List`, and `std::function` closures as Lean functions.
Each definition below is a direct transcription of the corresponding C++
function; file and line references are given in the doc comments.
-/

open scoped Classical

noncomputable section

namespace SDFModel

/-- `sdf::Vector3` (include/sdf/Vector3.h): a 3-vector of doubles, modelled
over the reals. -/
@[ext]
structure Vector3 where
  x : ℝ
  y : ℝ
  z : ℝ

namespace Vector3

/-- `Vector3::operator+` (Vector3.h, lines 22-24). -/
instance : Add Vector3 := ⟨fun a b => ⟨a.x + b.x, a.y + b.y, a.z + b.z⟩⟩

/-- `Vector3::operator-` (Vector3.h, lines 26-28). -/
instance : Sub Vector3 := ⟨fun a b => ⟨a.x - b.x, a.y - b.y, a.z - b.z⟩⟩

/-- Unary `Vector3::operator-` (Vector3.h, lines 46-48). -/
instance : Neg Vector3 := ⟨fun a => ⟨-a.x, -a.y, -a.z⟩⟩

/-- `Vector3::operator*(double)` (Vector3.h, lines 30-32). -/
instance : HMul Vector3 ℝ Vector3 := ⟨fun v s => ⟨v.x * s, v.y * s, v.z * s⟩⟩

/-- `Vector3::operator*(const Vector3&)`, elementwise (Vector3.h, lines 34-36). -/
instance : HMul Vector3 Vector3 Vector3 := ⟨fun a b => ⟨a.x * b.x, a.y * b.y, a.z * b.z⟩⟩

/-- `Vector3::operator/(double)` (Vector3.h, lines 38-40). -/
instance : HDiv Vector3 ℝ Vector3 := ⟨fun v s => ⟨v.x / s, v.y / s, v.z / s⟩⟩

/-- `Vector3::operator/(const Vector3&)`, elementwise (Vector3.h, lines 42-44). -/
instance : HDiv Vector3 Vector3 Vector3 := ⟨fun a b => ⟨a.x / b.x, a.y / b.y, a.z / b.z⟩⟩

/-- `Vector3::length` (Vector3.h, lines 88-90): `sqrt(x*x + y*y + z*z)`. -/
def length (v : Vector3) : ℝ := Real.sqrt (v.x * v.x + v.y * v.y + v.z * v.z)

/-- `Vector3::lengthSquared` (Vector3.h, lines 92-94). -/
def lengthSquared (v : Vector3) : ℝ := v.x * v.x + v.y * v.y + v.z * v.z

/-- `Vector3::normalized` (Vector3.h, lines 96-100): returns the zero vector
when the length is below `1e-10`, otherwise divides by the length. -/
def normalized (v : Vector3) : Vector3 :=
  if v.length < 1e-10 then ⟨0, 0, 0⟩ else v / v.length

/-- `Vector3::dot` (Vector3.h, lines 102-104). -/
def dot (a b : Vector3) : ℝ := a.x * b.x + a.y * b.y + a.z * b.z

/-- `Vector3::cross` (Vector3.h, lines 106-112). -/
def cross (a b : Vector3) : Vector3 :=
  ⟨a.y * b.z - a.z * b.y, a.z * b.x - a.x * b.z, a.x * b.y - a.y * b.x⟩

/-- Static `Vector3::min`, elementwise (Vector3.h, lines 115-121). -/
def vmin (a b : Vector3) : Vector3 := ⟨min a.x b.x, min a.y b.y, min a.z b.z⟩

/-- Static `Vector3::max`, elementwise (Vector3.h, lines 123-129). -/
def vmax (a b : Vector3) : Vector3 := ⟨max a.x b.x, max a.y b.y, max a.z b.z⟩

/-- Static `Vector3::abs`, elementwise (Vector3.h, lines 131-133). -/
def vabs (v : Vector3) : Vector3 := ⟨|v.x|, |v.y|, |v.z|⟩

end Vector3

/-- The `Z` direction constant (include/sdf/Constants.h, line 16). -/
def zDir : Vector3 := ⟨0, 0, 1⟩

/-- `PI` (include/sdf/Constants.h, line 9), the literal used by the source. -/
def PI : ℝ := 3.14159265358979323846

/-- The `clamp` helper defined identically in SDF3.cpp, MeshGenerator.cpp and
Operations.cpp: `std::max(min, std::min(value, max))`. -/
def clamp (value lo hi : ℝ) : ℝ := max lo (min value hi)

/-- `sdf::SDF3` (include/sdf/SDF3.h): a batch distance evaluator `vecFunc_`
together with the smoothing tag `k_`. -/
structure SDF3 where
  vecFunc : List Vector3 → List ℝ
  k : ℝ

/-- `SDF3::wrapFunction` (SDF3.cpp, lines 36-45): lifts a point function to a
batch function by mapping it over the input points. -/
def wrapFunction (f : Vector3 → ℝ) : List Vector3 → List ℝ :=
  fun points => points.map f

/-- The default constructor `SDF3::SDF3()` (SDF3.cpp, lines 15-19): the stored
batch function returns an empty vector for every input, and `k_ = 0`. -/
def defaultSDF3 : SDF3 where
  vecFunc := fun _ => []
  k := 0

/-- `SDF3::evaluate` (SDF3.cpp, lines 32-34): delegates to the stored batch
function. -/
def SDF3.evaluate (s : SDF3) (points : List Vector3) : List ℝ :=
  s.vecFunc points

/-- `SDF3::operator()` (SDF3.cpp, lines 27-30): evaluates the batch function
on the one-point list and returns `0.0` when the result is empty, else its
first element. -/
def SDF3.app (s : SDF3) (p : Vector3) : ℝ :=
  (s.vecFunc [p]).headD 0

/-- The §3 Field invariant "evaluation preserves length": `|out| = |in|`.
All fields built from primitives and combinators satisfy it; the C++ code
indexes `a[i]`/`b[i]` for `i < points.size()` on that assumption. -/
def LengthPreserving (s : SDF3) : Prop :=
  ∀ points, (s.vecFunc points).length = points.length

/-- A constant-distance field lifted through `wrapFunction`; used as a
concrete test field. -/
def constField (c : ℝ) : SDF3 where
  vecFunc := wrapFunction (fun _ => c)
  k := 0

/-- The field `p ↦ p.x` lifted through `wrapFunction`; a concrete
length-preserving test field whose value depends on the point. -/
def xField : SDF3 where
  vecFunc := wrapFunction (fun v => v.x)
  k := 0

/-- `SDF3::k` (SDF3.cpp, lines 135-139): returns a copy of the field whose
smoothing tag is `k_value`. -/
def SDF3.withK (s : SDF3) (kValue : ℝ) : SDF3 :=
  ⟨s.vecFunc, kValue⟩

/-- The per-point smooth-union value from the `k != 0` branch of
`SDF3::operator|` (SDF3.cpp, lines 66-70):
`h = clamp(0.5 + 0.5*(b - a)/k, 0, 1)`, `d = b*(1-h) + a*h - k*h*(1-h)`. -/
def smoothUnionVal (av bv kk : ℝ) : ℝ :=
  let h := clamp (0.5 + 0.5 * (bv - av) / kk) 0 1
  bv * (1 - h) + av * h - kk * h * (1 - h)

/-- `SDF3::operator|` (SDF3.cpp, lines 48-75): the union combinator.  It
captures `k = max(k_, other.k_)`; the closure evaluates both operands on the
batch and, per index `i` below `points.size()`, returns `min(a[i], b[i])` when
`k == 0` and the smooth-union value otherwise.  (The C++ `a[i]`/`b[i]` reads
are in bounds exactly when the operands preserve batch length, which is the
§3 Field invariant; `getD _ _ 0` models the in-bounds reads.)  The resulting
`SDF3` is built by the `SDF3(VectorFunction)` constructor, so its own tag is
`0`. -/
def SDF3.union (a b : SDF3) : SDF3 where
  vecFunc := fun points =>
    if max a.k b.k = 0 then
      (List.range points.length).map fun i =>
        min ((a.vecFunc points).getD i 0) ((b.vecFunc points).getD i 0)
    else
      (List.range points.length).map fun i =>
        smoothUnionVal ((a.vecFunc points).getD i 0) ((b.vecFunc points).getD i 0)
          (max a.k b.k)
  k := 0

/-- `scale(const SDF3&, double)` (Operations.cpp, lines 50-64): divides each
query point by `factor`, evaluates the operand, then multiplies each returned
distance by `factor`.  Built by the `SDF3(VectorFunction)` constructor, so the
tag is `0`. -/
def scale (sdf : SDF3) (factor : ℝ) : SDF3 where
  vecFunc := fun points =>
    (sdf.vecFunc (points.map fun p => p / factor)).map fun r => r * factor
  k := 0

/-- The `rotatePoint` closure inside `rotate` (Operations.cpp, lines 86-97):
applies the transposed Rodrigues matrix built from the unit axis `a`,
`c = cos(angle)`, `s = sin(angle)`, `t = 1 - c` to a point. -/
def rotatePoint (a : Vector3) (c s t : ℝ) (p : Vector3) : Vector3 :=
  ⟨p.x * (t * a.x * a.x + c) + p.y * (t * a.x * a.y + s * a.z)
      + p.z * (t * a.x * a.z - s * a.y),
   p.x * (t * a.x * a.y - s * a.z) + p.y * (t * a.y * a.y + c)
      + p.z * (t * a.y * a.z + s * a.x),
   p.x * (t * a.x * a.z + s * a.y) + p.y * (t * a.y * a.z - s * a.x)
      + p.z * (t * a.z * a.z + c)⟩

/-- `rotate` (Operations.cpp, lines 79-108): normalizes the axis (with no
validation of its magnitude), builds the rotation closure, and returns a field
that pre-rotates every query point.  There is no error path: a zero axis is
silently turned into the zero vector by `Vector3::normalized`. -/
def rotate (sdf : SDF3) (angle : ℝ) (axis : Vector3) : SDF3 where
  vecFunc := fun points =>
    sdf.vecFunc (points.map (rotatePoint axis.normalized (Real.cos angle)
      (Real.sin angle) (1 - Real.cos angle)))
  k := 0

/-- `orient` (Operations.cpp, lines 111-131): rotates so that local `+Z` maps
onto the (normalized) target axis, with special cases for aligned and opposite
directions.  Like `rotate` it performs no validation of the axis. -/
def orient (sdf : SDF3) (targetAxis : Vector3) : SDF3 :=
  if (zDir - targetAxis.normalized).lengthSquared < 1e-10 then sdf
  else if (zDir + targetAxis.normalized).lengthSquared < 1e-10 then
    rotate sdf PI (if |zDir.x| < 0.9 then ⟨1, 0, 0⟩ else ⟨0, 1, 0⟩)
  else
    rotate sdf (Real.arccos (clamp (zDir.dot targetAxis.normalized) (-1) 1))
      ((zDir.cross targetAxis.normalized).normalized)

/-- `MarchingCubes::vertexInterp` (MarchingCubes.cpp, lines 7-18). -/
def vertexInterp (isolevel : ℝ) (p1 p2 : Vector3) (v1 v2 : ℝ) : Vector3 :=
  if |isolevel - v1| < 1e-10 then p1
  else if |isolevel - v2| < 1e-10 then p2
  else if |v1 - v2| < 1e-10 then p1
  else p1 + (p2 - p1) * ((isolevel - v1) / (v2 - v1))

/-- Pads an initializer row of `MarchingCubes::triTable` to its declared
width of 16 entries with the `-1` fillers written in the source. -/
def padRow (l : List ℤ) : List ℤ := l ++ List.replicate (16 - l.length) (-1)

/-- `MarchingCubes::triTable` (MarchingCubes.cpp, lines 141-164).  The C++
declaration is `const int triTable[256][16]`, but the initializer stops after
the rows for cube indices 0-15 plus a placeholder all `-1` row for index 16
("Case 16...", line 161); by C++ aggregate initialization the remaining 239
rows are zero-filled. -/
def triTable : List (List ℤ) :=
  [padRow [],
   padRow [0, 8, 3],
   padRow [0, 1, 9],
   padRow [1, 8, 3, 9, 8, 1],
   padRow [1, 2, 10],
   padRow [0, 8, 3, 1, 2, 10],
   padRow [9, 2, 10, 0, 2, 9],
   padRow [2, 8, 3, 2, 10, 8, 10, 9, 8],
   padRow [3, 11, 2],
   padRow [0, 11, 2, 8, 11, 0],
   padRow [1, 9, 0, 2, 3, 11],
   padRow [1, 11, 2, 1, 9, 11, 9, 8, 11],
   padRow [3, 10, 1, 11, 10, 3],
   padRow [0, 10, 1, 0, 8, 10, 8, 11, 10],
   padRow [3, 9, 0, 3, 11, 9, 11, 10, 9],
   padRow [9, 8, 10, 10, 8, 11],
   padRow []] ++ List.replicate 239 (List.replicate 16 0)

/-- Modelled from the spec: the standard Paul Bourke / NVIDIA triangle-table
row for cube index 16 (only corner 4 inside), which is the single triangle on
edges 4, 7, 8.  The spec requires the full standard table, which is missing
from the source. -/
def standardRow16 : List ℤ := padRow [4, 7, 8]

/-- The triangle-emission scan of `MarchingCubes::extractSurface`
(MarchingCubes.cpp, lines 89-94) restricted to one 16-entry table row:
`for (int i = 0; triIndices[i] != -1; i += 3)` emits the edge-index triple
`(row[i], row[i+1], row[i+2])`.  `none` models the loop running off the end
of the row without having met a `-1` terminator (an out-of-row read, which is
undefined behavior in the C++). -/
def rowTriangles : List ℤ → Option (List (ℤ × ℤ × ℤ))
  | a :: b :: c :: rest =>
      if a = -1 then some [] else (rowTriangles rest).map fun ts => (a, b, c) :: ts
  | a :: _ => if a = -1 then some [] else none
  | [] => none

/-- The eight batch corners of `MeshGenerator::canSkipBatch`
(MeshGenerator.cpp, lines 280-289), in source order. -/
def batchCorners (batchMin batchMax : Vector3) : List Vector3 :=
  [⟨batchMin.x, batchMin.y, batchMin.z⟩,
   ⟨batchMax.x, batchMin.y, batchMin.z⟩,
   ⟨batchMin.x, batchMax.y, batchMin.z⟩,
   ⟨batchMax.x, batchMax.y, batchMin.z⟩,
   ⟨batchMin.x, batchMin.y, batchMax.z⟩,
   ⟨batchMax.x, batchMin.y, batchMax.z⟩,
   ⟨batchMin.x, batchMax.y, batchMax.z⟩,
   ⟨batchMax.x, batchMax.y, batchMax.z⟩]

/-- `MeshGenerator::canSkipBatch` (MeshGenerator.cpp, lines 264-302) as the
proposition "the function returns `true`".  The code returns `false` when
`|sdf(center)| <= radius` with `radius` half the space diagonal; otherwise it
scans the eight corner values, clearing `allPositive` on any value `< 0` and
`allNegative` on any value `> 0`, and returns `allPositive || allNegative`.
So `allPositive` holds iff no corner value is negative, and symmetrically. -/
def canSkipBatch (sdf : SDF3) (batchMin batchMax : Vector3) : Prop :=
  ¬ |sdf.app ((batchMin + batchMax) * (0.5 : ℝ))| ≤ (batchMax - batchMin).length / 2 ∧
  ((∀ v ∈ sdf.evaluate (batchCorners batchMin batchMax), ¬ v < 0) ∨
   (∀ v ∈ sdf.evaluate (batchCorners batchMin batchMax), ¬ v > 0))

/-- Modelled from the spec's words for the skip test (claim C2): the center
distance strictly exceeds `R` and the eight corner distances are all strictly
positive or all strictly negative. -/
def canSkipBatchSpec (sdf : SDF3) (batchMin batchMax : Vector3) : Prop :=
  (batchMax - batchMin).length / 2 < |sdf.app ((batchMin + batchMax) * (0.5 : ℝ))| ∧
  ((∀ v ∈ sdf.evaluate (batchCorners batchMin batchMax), 0 < v) ∨
   (∀ v ∈ sdf.evaluate (batchCorners batchMin batchMax), v < 0))

/-- A concrete field whose distance is `10*(1 - |x - 1|)`: value `10` at the
center of the box `[0,2]^3` and exactly `0` at all eight of its corners. -/
def ridgeField : SDF3 where
  vecFunc := wrapFunction (fun p => 10 * (1 - |p.x - 1|))
  k := 0

/-- The grid resolution `const int samples = 16` of
`MeshGenerator::estimateBounds` (MeshGenerator.cpp, line 200). -/
def ebSamples : ℕ := 16

/-- The per-axis grid step `(boundsMax - boundsMin) / (samples - 1)` of
`estimateBounds` (MeshGenerator.cpp, line 207). -/
def ebStep (bmin bmax : Vector3) : Vector3 :=
  (bmax - bmin) / ((ebSamples : ℝ) - 1)

/-- `threshold = step.length() / 2.0` (MeshGenerator.cpp, line 208). -/
def ebThreshold (bmin bmax : Vector3) : ℝ :=
  (ebStep bmin bmax).length / 2

/-- The sampling grid of `estimateBounds` (MeshGenerator.cpp, lines 216-229):
`z`, `y`, `x` loops over `0..15`, points at
`boundsMin + (x,y,z) * step` componentwise. -/
def ebGridPoints (bmin bmax : Vector3) : List Vector3 :=
  (List.range ebSamples).flatMap fun z =>
    (List.range ebSamples).flatMap fun y =>
      (List.range ebSamples).map fun x =>
        ⟨bmin.x + (x : ℝ) * (ebStep bmin bmax).x,
         bmin.y + (y : ℝ) * (ebStep bmin bmax).y,
         bmin.z + (z : ℝ) * (ebStep bmin bmax).z⟩

/-- The near-surface samples collected by one `estimateBounds` iteration
(MeshGenerator.cpp, lines 239-245): the grid points paired with their field
values (the code reads `points[i]` and `values[i]` for the same `i`, which
`zip` models), kept when `|values[i]| <= threshold`. -/
def ebNear (sdf : SDF3) (bmin bmax : Vector3) : List (Vector3 × ℝ) :=
  ((ebGridPoints bmin bmax).zip (sdf.evaluate (ebGridPoints bmin bmax))).filter
    fun pv => decide (|pv.2| ≤ ebThreshold bmin bmax)

/-- The loop body of `MeshGenerator::estimateBounds` (MeshGenerator.cpp,
lines 206-259), with the remaining iteration count as fuel (the `for` loop
runs `iteration = 0..31`, so the entry point passes fuel 32).  Each iteration:
terminate when `|threshold - prevThreshold| < 1e-10`; otherwise evaluate the
field on the 16^3 grid.  When no sample is within the threshold
(`foundAny == false`, i.e. `ebNear` is empty), the box is replaced by the box
of twice the extent about the same center; otherwise by the elementwise
min/max bounding box of the collected points enlarged by `step * 0.5`. -/
def estimateBoundsAux (sdf : SDF3) : ℕ → Vector3 → Vector3 → ℝ → Vector3 × Vector3
  | 0, bmin, bmax, _ => (bmin, bmax)
  | Nat.succ n, bmin, bmax, prev =>
      if |ebThreshold bmin bmax - prev| < 1e-10 then (bmin, bmax)
      else if ebNear sdf bmin bmax = [] then
        estimateBoundsAux sdf n
          ((bmin + bmax) * (0.5 : ℝ) - (bmax - bmin))
          ((bmin + bmax) * (0.5 : ℝ) + (bmax - bmin))
          (ebThreshold bmin bmax)
      else
        estimateBoundsAux sdf n
          (((ebNear sdf bmin bmax).foldl (fun acc pv => Vector3.vmin acc pv.1) bmax)
            - ebStep bmin bmax * (0.5 : ℝ))
          (((ebNear sdf bmin bmax).foldl (fun acc pv => Vector3.vmax acc pv.1) bmin)
            + ebStep bmin bmax * (0.5 : ℝ))
          (ebThreshold bmin bmax)

/-- `MeshGenerator::estimateBounds` (MeshGenerator.cpp, lines 199-262):
at most 32 iterations starting from the box `[-10,10]^3` with
`prevThreshold = -1.0`.  Over the reals the returned box is trivially
finite. -/
def estimateBounds (sdf : SDF3) : Vector3 × Vector3 :=
  estimateBoundsAux sdf 32 ⟨-10, -10, -10⟩ ⟨10, 10, 10⟩ (-1)

/-- The step-size selection of `MeshGenerator::generate` (MeshGenerator.cpp,
lines 37-47): when `step == 0` and `samples > 0`, derive the step from the
bounds volume by a cube root (modelled as `rpow (1/3)`, which agrees with
`std::cbrt` on nonnegative volumes); then, when the step is still `0`, fall
back to the constant `0.1`.  `generate` contains no validation and no error
path. -/
def computeStep (stepOpt : ℝ) (samples : ℤ) (volume : ℝ) : ℝ :=
  let step1 := if stepOpt = 0 ∧ 0 < samples
    then (volume / (samples : ℝ)) ^ ((1 : ℝ) / 3) else stepOpt
  if step1 = 0 then 0.1 else step1

/-!
## Theorems

Helper lemmas first, then one theorem (with witness or counterexample) per
claim.
-/

@[simp] theorem Vector3.add_x (a b : Vector3) : (a + b).x = a.x + b.x := rfl
@[simp] theorem Vector3.add_y (a b : Vector3) : (a + b).y = a.y + b.y := rfl
@[simp] theorem Vector3.add_z (a b : Vector3) : (a + b).z = a.z + b.z := rfl
@[simp] theorem Vector3.sub_x (a b : Vector3) : (a - b).x = a.x - b.x := rfl
@[simp] theorem Vector3.sub_y (a b : Vector3) : (a - b).y = a.y - b.y := rfl
@[simp] theorem Vector3.sub_z (a b : Vector3) : (a - b).z = a.z - b.z := rfl
@[simp] theorem Vector3.smul_x (v : Vector3) (s : ℝ) : (v * s).x = v.x * s := rfl
@[simp] theorem Vector3.smul_y (v : Vector3) (s : ℝ) : (v * s).y = v.y * s := rfl
@[simp] theorem Vector3.smul_z (v : Vector3) (s : ℝ) : (v * s).z = v.z * s := rfl
@[simp] theorem Vector3.sdiv_x (v : Vector3) (s : ℝ) : (v / s).x = v.x / s := rfl
@[simp] theorem Vector3.sdiv_y (v : Vector3) (s : ℝ) : (v / s).y = v.y / s := rfl
@[simp] theorem Vector3.sdiv_z (v : Vector3) (s : ℝ) : (v / s).z = v.z / s := rfl

theorem constField_lengthPreserving (c : ℝ) : LengthPreserving (constField c) := by
  intro points
  simp [constField, wrapFunction]

/-- A length-preserving field evaluates a one-point batch to the one-element
list holding `operator()` of that point. -/
theorem vecFunc_singleton (a : SDF3) (ha : LengthPreserving a) (p : Vector3) :
    a.vecFunc [p] = [a.app p] := by
  have h := ha [p]
  match hv : a.vecFunc [p] with
  | [] => rw [hv] at h; simp at h
  | [r] => simp [SDF3.app, hv]
  | r :: s :: t => rw [hv] at h; simp at h

theorem union_app_hard (a b : SDF3) (ha : LengthPreserving a) (hb : LengthPreserving b)
    (p : Vector3) (hk : max a.k b.k = 0) :
    (a.union b).app p = min (a.app p) (b.app p) := by
  have key : (a.union b).vecFunc [p] = [min (a.app p) (b.app p)] := by
    simp only [SDF3.union]
    rw [if_pos hk, vecFunc_singleton a ha p, vecFunc_singleton b hb p]
    simp [List.range_succ]
  show ((a.union b).vecFunc [p]).headD 0 = _
  rw [key]
  rfl

theorem union_app_smooth (a b : SDF3) (ha : LengthPreserving a) (hb : LengthPreserving b)
    (p : Vector3) (hk : max a.k b.k ≠ 0) :
    (a.union b).app p = smoothUnionVal (a.app p) (b.app p) (max a.k b.k) := by
  have key : (a.union b).vecFunc [p] =
      [smoothUnionVal (a.app p) (b.app p) (max a.k b.k)] := by
    simp only [SDF3.union]
    rw [if_neg hk, vecFunc_singleton a ha p, vecFunc_singleton b hb p]
    simp [List.range_succ]
  show ((a.union b).vecFunc [p]).headD 0 = _
  rw [key]
  rfl

/-- The smooth-union value is bounded above by the hard minimum, for any
positive smoothing radius. -/
theorem smoothUnionVal_le_min (av bv kk : ℝ) (hk : 0 < kk) :
    smoothUnionVal av bv kk ≤ min av bv := by
  have hval : smoothUnionVal av bv kk =
      bv * (1 - clamp (0.5 + 0.5 * (bv - av) / kk) 0 1)
      + av * clamp (0.5 + 0.5 * (bv - av) / kk) 0 1
      - kk * clamp (0.5 + 0.5 * (bv - av) / kk) 0 1
        * (1 - clamp (0.5 + 0.5 * (bv - av) / kk) 0 1) := rfl
  rw [hval]
  set x := 0.5 + 0.5 * (bv - av) / kk with hxdef
  set h := clamp x 0 1 with hhdef
  have hhm : h = max 0 (min x 1) := rfl
  have h0 : 0 ≤ h := by rw [hhm]; exact le_max_left 0 _
  have h1 : h ≤ 1 := by rw [hhm]; exact max_le zero_le_one (min_le_right x 1)
  have hs : bv - av = kk * (2 * x - 1) := by
    rw [hxdef]
    field_simp
    ring
  refine le_min ?_ ?_
  · rcases lt_or_ge x 1 with hx1 | hx1
    · have hxh : x ≤ h := by
        rw [hhm, min_eq_left hx1.le]
        exact le_max_right _ _
      nlinarith [mul_nonneg (mul_nonneg hk.le (sub_nonneg.mpr h1)) (sub_nonneg.mpr hxh),
        mul_nonneg (mul_nonneg hk.le (sub_nonneg.mpr h1)) (sub_nonneg.mpr h1)]
    · have hh1 : h = 1 := by
        rw [hhm, min_eq_right hx1]
        exact max_eq_right zero_le_one
      rw [hh1]
      nlinarith [hk.le]
  · rcases le_or_lt x 0 with hx0 | hx0
    · have hh0 : h = 0 := by
        rw [hhm, min_eq_left (le_trans hx0 zero_le_one)]
        exact max_eq_left hx0
      rw [hh0]
      nlinarith [hk.le]
    · have hhx : h ≤ x := by
        rw [hhm]
        exact max_le hx0.le (min_le_left x 1)
      nlinarith [mul_nonneg (mul_nonneg hk.le h0) (sub_nonneg.mpr hhx),
        mul_nonneg (mul_nonneg hk.le h0) hx0.le]

theorem length_zero_vec : Vector3.length ⟨0, 0, 0⟩ = 0 := by
  unfold Vector3.length
  norm_num

/-- A pair drawn from a list zipped with its image under a map has the mapped
first component as its second component. -/
theorem snd_of_mem_zip_map {α β : Type} (l : List α) (g : α → β) (pv : α × β)
    (h : pv ∈ l.zip (l.map g)) : pv.2 = g pv.1 := by
  induction l with
  | nil => simp at h
  | cons a t ih =>
    rw [List.map_cons, List.zip_cons_cons] at h
    rcases List.mem_cons.mp h with h | h
    · rw [h]
    · exact ih h

/-- **C9**: the default-constructed `SDF3` evaluates every point list to the
empty list — so the batch-length invariant `|evaluate(P)| = |P|` fails on
every nonempty `P` — and its single-point call `operator()` returns `0.0`. -/
theorem defaultSDF3_eval (P : List Vector3) (p : Vector3) :
    defaultSDF3.evaluate P = [] ∧
    (P ≠ [] → (defaultSDF3.evaluate P).length ≠ P.length) ∧
    defaultSDF3.app p = 0 := by
  refine ⟨rfl, ?_, rfl⟩
  intro hP
  have hpos : 0 < P.length := List.length_pos.mpr hP
  simp only [defaultSDF3, SDF3.evaluate, List.length_nil]
  omega

theorem defaultSDF3_eval_witness :
    (defaultSDF3.evaluate [⟨0, 0, 0⟩]).length ≠ ([⟨0, 0, 0⟩] : List Vector3).length :=
  (defaultSDF3_eval [⟨0, 0, 0⟩] ⟨0, 0, 0⟩).2.1 (by simp)

/-- **C10**: calling `generate` with `step = 0` and `samples <= 0` raises no
error — the source has no error path — and the step-size selection silently
falls back to the constant `0.1`, after which mesh generation proceeds with
that step. -/
theorem generate_step_fallback (samples : ℤ) (h : samples ≤ 0) (volume : ℝ) :
    computeStep 0 samples volume = 0.1 := by
  have hns : ¬ (0 : ℤ) < samples := not_lt.mpr h
  simp [computeStep, hns]

theorem generate_step_fallback_witness : computeStep 0 0 8 = 0.1 :=
  generate_step_fallback 0 le_rfl 8

/-- **C6**: `vertexInterp` returns `p1` when `|iso - v1| < 1e-10`, else `p2`
when `|iso - v2| < 1e-10`, else `p1` when `|v1 - v2| < 1e-10`, and otherwise
returns `p1 + (p2 - p1) * mu` with `mu = (iso - v1)/(v2 - v1)`; in the
division branch `|v1 - v2| >= 1e-10` necessarily holds. -/
theorem vertexInterp_cases (iso : ℝ) (p1 p2 : Vector3) (v1 v2 : ℝ) :
    (|iso - v1| < 1e-10 → vertexInterp iso p1 p2 v1 v2 = p1) ∧
    (¬ |iso - v1| < 1e-10 → |iso - v2| < 1e-10 → vertexInterp iso p1 p2 v1 v2 = p2) ∧
    (¬ |iso - v1| < 1e-10 → ¬ |iso - v2| < 1e-10 → |v1 - v2| < 1e-10 →
      vertexInterp iso p1 p2 v1 v2 = p1) ∧
    (¬ |iso - v1| < 1e-10 → ¬ |iso - v2| < 1e-10 → ¬ |v1 - v2| < 1e-10 →
      vertexInterp iso p1 p2 v1 v2 = p1 + (p2 - p1) * ((iso - v1) / (v2 - v1)) ∧
      1e-10 ≤ |v1 - v2|) := by
  refine ⟨fun h1 => ?_, fun h1 h2 => ?_, fun h1 h2 h3 => ?_,
    fun h1 h2 h3 => ⟨?_, not_lt.mp h3⟩⟩
  · simp [vertexInterp, h1]
  · simp [vertexInterp, h1, h2]
  · simp [vertexInterp, h1, h2, h3]
  · simp [vertexInterp, h1, h2, h3]

theorem vertexInterp_witness :
    vertexInterp 0 ⟨0, 0, 0⟩ ⟨1, 1, 1⟩ 2 (-2) =
      (⟨0, 0, 0⟩ : Vector3) + ((⟨1, 1, 1⟩ : Vector3) - ⟨0, 0, 0⟩) * (((0 : ℝ) - 2) / (-2 - 2)) ∧
    1e-10 ≤ |(2 : ℝ) - (-2)| :=
  (vertexInterp_cases 0 ⟨0, 0, 0⟩ ⟨1, 1, 1⟩ 2 (-2)).2.2.2
    (by norm_num) (by norm_num) (by norm_num)

/-- **C3**: the union operator builds its smoothing value as
`k = max(k_a, k_b)` from the operand tags; at every point it returns
`min(a(p), b(p))` when `k = 0`, and when `k > 0` it returns
`d = b*(1-h) + a*h - k*h*(1-h)` with `h = clamp(0.5 + 0.5*(b-a)/k, 0, 1)`. -/
theorem union_eval (a b : SDF3) (ha : LengthPreserving a) (hb : LengthPreserving b)
    (p : Vector3) :
    (max a.k b.k = 0 → (a.union b).app p = min (a.app p) (b.app p)) ∧
    (0 < max a.k b.k → (a.union b).app p =
      b.app p * (1 - clamp (0.5 + 0.5 * (b.app p - a.app p) / max a.k b.k) 0 1)
      + a.app p * clamp (0.5 + 0.5 * (b.app p - a.app p) / max a.k b.k) 0 1
      - max a.k b.k * clamp (0.5 + 0.5 * (b.app p - a.app p) / max a.k b.k) 0 1
        * (1 - clamp (0.5 + 0.5 * (b.app p - a.app p) / max a.k b.k) 0 1)) := by
  constructor
  · exact fun hk => union_app_hard a b ha hb p hk
  · intro hk
    rw [union_app_smooth a b ha hb p (ne_of_gt hk)]
    rfl

theorem union_eval_witness :
    ((constField 1).union (constField 2)).app ⟨0, 0, 0⟩ =
      min ((constField 1).app ⟨0, 0, 0⟩) ((constField 2).app ⟨0, 0, 0⟩) :=
  (union_eval (constField 1) (constField 2) (constField_lengthPreserving 1)
    (constField_lengthPreserving 2) ⟨0, 0, 0⟩).1 (by simp [constField])

/-- **C4**: for `k = max(k_a, k_b) > 0` the smooth union is bounded above by
the hard minimum `min(a(p), b(p))` at every point. -/
theorem union_smooth_le_min (a b : SDF3) (ha : LengthPreserving a)
    (hb : LengthPreserving b) (p : Vector3) (hk : 0 < max a.k b.k) :
    (a.union b).app p ≤ min (a.app p) (b.app p) := by
  rw [union_app_smooth a b ha hb p (ne_of_gt hk)]
  exact smoothUnionVal_le_min _ _ _ hk

theorem union_smooth_le_min_witness :
    (((constField 1).withK 1).union (constField 2)).app ⟨0, 0, 0⟩ ≤
      min (((constField 1).withK 1).app ⟨0, 0, 0⟩) ((constField 2).app ⟨0, 0, 0⟩) :=
  union_smooth_le_min ((constField 1).withK 1) (constField 2)
    (fun points => constField_lengthPreserving 1 points)
    (constField_lengthPreserving 2) ⟨0, 0, 0⟩
    (by norm_num [constField, SDF3.withK])

/-- **C5**: uniform scaling satisfies `scale(f, s)(p) = s * f(p / s)` for
every `s > 0` (the code divides the query point by `s` and multiplies the
returned distance by `s`). -/
theorem scale_app (f : SDF3) (hf : LengthPreserving f) (s : ℝ) (_hs : 0 < s)
    (p : Vector3) :
    (scale f s).app p = s * f.app (p / s) := by
  have key : (scale f s).vecFunc [p] = [f.app (p / s) * s] := by
    simp only [scale]
    rw [List.map_singleton, vecFunc_singleton f hf (p / s), List.map_singleton]
  show ((scale f s).vecFunc [p]).headD 0 = _
  rw [key]
  show f.app (p / s) * s = _
  ring

theorem scale_app_witness :
    (scale xField 2).app ⟨4, 0, 0⟩ = 2 * xField.app ((⟨4, 0, 0⟩ : Vector3) / (2 : ℝ)) :=
  scale_app xField (fun points => by simp [xField, wrapFunction]) 2
    (by norm_num) ⟨4, 0, 0⟩

set_option maxRecDepth 8000 in
/-- **C1**: the claim that every `triTable` row is the standard Paul Bourke /
NVIDIA row with a `-1` terminator within its 16 entries fails on the shipped
source: the initializer stops after cube index 16, so row 16 is an all `-1`
placeholder instead of the standard `{4, 7, 8, -1, ...}`, and rows 17-255 are
zero-filled with no `-1` terminator at all — on such a row the emission loop
of `extractSurface` runs off the end of the row (`rowTriangles` returns
`none`), while on the shipped rows 0-15 it terminates normally. -/
theorem triTable_truncated :
    triTable.length = 256 ∧
    triTable.getD 16 [] ≠ standardRow16 ∧
    triTable.getD 17 [] = List.replicate 16 0 ∧
    ¬ (-1 : ℤ) ∈ triTable.getD 17 [] ∧
    rowTriangles (triTable.getD 17 []) = none ∧
    rowTriangles (triTable.getD 1 []) = some [(0, 8, 3)] := by
  refine ⟨by decide, by decide, by decide, by decide, by decide, by decide⟩

/-- **C2** counterexample: for the field `10*(1 - |x - 1|)` on the batch
`[0,2]^3` the code's `canSkipBatch` returns `true` — the center distance `10`
exceeds `R = sqrt(12)/2` and no corner value is negative — even though all
eight corner distances are exactly `0`, so they are not strictly same-signed
and the claim's reading (under which such a batch is never skipped) is
false. -/
theorem canSkipBatch_zero_corner :
    canSkipBatch ridgeField ⟨0, 0, 0⟩ ⟨2, 2, 2⟩ ∧
    ¬ canSkipBatchSpec ridgeField ⟨0, 0, 0⟩ ⟨2, 2, 2⟩ := by
  have hsq : Real.sqrt 12 < 4 := by
    rw [show (4 : ℝ) = Real.sqrt 16 by
      rw [show (16 : ℝ) = 4 ^ 2 by norm_num, Real.sqrt_sq (by norm_num : (0:ℝ) ≤ 4)]]
    exact Real.sqrt_lt_sqrt (by norm_num) (by norm_num)
  have hlen : ((⟨2, 2, 2⟩ : Vector3) - ⟨0, 0, 0⟩).length = Real.sqrt 12 := by
    unfold Vector3.length
    norm_num
  have happ : ridgeField.app (((⟨0, 0, 0⟩ : Vector3) + ⟨2, 2, 2⟩) * (0.5 : ℝ)) = 10 := by
    simp [ridgeField, SDF3.app, wrapFunction]
    norm_num
  have hvals : ridgeField.evaluate (batchCorners ⟨0, 0, 0⟩ ⟨2, 2, 2⟩) =
      [0, 0, 0, 0, 0, 0, 0, 0] := by
    simp [ridgeField, SDF3.evaluate, wrapFunction, batchCorners]
    norm_num
  refine ⟨⟨?_, Or.inl ?_⟩, ?_⟩
  · rw [happ, hlen]
    intro hcon
    rw [abs_of_nonneg (by norm_num : (0 : ℝ) ≤ 10)] at hcon
    nlinarith [hsq]
  · rw [hvals]
    intro v hv
    simp at hv
    rw [hv]
    norm_num
  · rintro ⟨hc, hall⟩
    rw [hvals] at hall
    rcases hall with hpos | hneg
    · have h0 := hpos 0 (by simp)
      norm_num at h0
    · have h0 := hneg 0 (by simp)
      norm_num at h0

/-- **C2** (amended): `canSkipBatch(f, batchMin, batchMax)` returns `true`
iff `|f(center)| > R` (with `R` half the box's space diagonal) and the eight
corner distances are all nonnegative or all nonpositive; a batch with a
corner distance exactly zero can still be skipped when the remaining corners
share that weak sign. -/
theorem canSkipBatch_iff (sdf : SDF3) (batchMin batchMax : Vector3) :
    canSkipBatch sdf batchMin batchMax ↔
      ((batchMax - batchMin).length / 2 <
        |sdf.app ((batchMin + batchMax) * (0.5 : ℝ))| ∧
       ((∀ v ∈ sdf.evaluate (batchCorners batchMin batchMax), 0 ≤ v) ∨
        (∀ v ∈ sdf.evaluate (batchCorners batchMin batchMax), v ≤ 0))) := by
  unfold canSkipBatch
  simp only [not_le, not_lt, gt_iff_lt]

/-- **C7** counterexample: calling `rotate` (and `orient`) with the zero axis
— magnitude `0 < 1e-10` — raises no `ArgumentError`; both return a usable
field which evaluates normally (here to the constant distance `7`). -/
theorem rotate_zero_axis_no_error :
    Vector3.length ⟨0, 0, 0⟩ < 1e-10 ∧
    (rotate (constField 7) 0 ⟨0, 0, 0⟩).app ⟨1, 2, 3⟩ = 7 ∧
    (orient (constField 7) ⟨0, 0, 0⟩).app ⟨1, 2, 3⟩ = 7 := by
  have hlen0 : Vector3.length ⟨0, 0, 0⟩ < 1e-10 := by
    rw [length_zero_vec]
    norm_num
  have hnorm0 : Vector3.normalized ⟨0, 0, 0⟩ = ⟨0, 0, 0⟩ := by
    unfold Vector3.normalized
    rw [if_pos hlen0]
  refine ⟨hlen0, ?_, ?_⟩
  · simp [rotate, constField, wrapFunction, SDF3.app]
  · unfold orient
    rw [hnorm0]
    rw [if_neg (by unfold Vector3.lengthSquared zDir; simp; norm_num),
      if_neg (by unfold Vector3.lengthSquared zDir; simp; norm_num)]
    simp [rotate, constField, wrapFunction, SDF3.app]

/-- **C7** (amended): with an axis of magnitude `< 1e-10`, `rotate` and
`orient` raise no error: `normalized()` silently yields the zero vector,
`rotate` returns a field that delegates evaluation through the degenerate
zero-axis rotation matrix, and `orient` reduces to `rotate` with angle
`arccos(0)` and the zero axis. -/
theorem rotate_orient_zero_axis (f : SDF3) (angle : ℝ) (axis : Vector3)
    (h : axis.length < 1e-10) :
    axis.normalized = ⟨0, 0, 0⟩ ∧
    (∀ points, (rotate f angle axis).vecFunc points =
      f.vecFunc (points.map (rotatePoint ⟨0, 0, 0⟩ (Real.cos angle)
        (Real.sin angle) (1 - Real.cos angle)))) ∧
    orient f axis = rotate f (Real.arccos 0) ⟨0, 0, 0⟩ := by
  have hn : axis.normalized = ⟨0, 0, 0⟩ := by
    unfold Vector3.normalized
    rw [if_pos h]
  have hzero : Vector3.length ⟨0, 0, 0⟩ < 1e-10 := by
    rw [length_zero_vec]
    norm_num
  refine ⟨hn, ?_, ?_⟩
  · intro points
    simp [rotate, hn]
  · unfold orient
    rw [hn]
    rw [if_neg (by unfold Vector3.lengthSquared zDir; simp; norm_num),
      if_neg (by unfold Vector3.lengthSquared zDir; simp; norm_num)]
    have hdot : clamp (zDir.dot ⟨0, 0, 0⟩) (-1) 1 = 0 := by
      unfold clamp Vector3.dot zDir
      norm_num
    have hcross : (zDir.cross ⟨0, 0, 0⟩).normalized = ⟨0, 0, 0⟩ := by
      rw [show zDir.cross ⟨0, 0, 0⟩ = ⟨0, 0, 0⟩ by unfold Vector3.cross zDir; norm_num]
      unfold Vector3.normalized
      rw [if_pos hzero]
    rw [hdot, hcross]

theorem rotate_orient_zero_axis_witness :
    Vector3.normalized ⟨0, 0, 0⟩ = ⟨0, 0, 0⟩ :=
  (rotate_orient_zero_axis (constField 7) 0 ⟨0, 0, 0⟩
    (by rw [length_zero_vec]; norm_num)).1

/-- **C8**: an `estimateBounds` iteration that passes the termination test and
finds no grid sample with `|d| <= threshold` replaces the box by the box with
twice the extent about the same center (`boundsMin = center - size`,
`boundsMax = center + size` with `size` the old extent; the new extent is
twice the old and the center is unchanged).  The entry point runs the loop
with fuel 32 from `[-10, 10]^3`, so at most 32 iterations happen, and the
returned box is a pair of real vectors, hence finite. -/
theorem estimateBounds_expand (sdf : SDF3) (n : ℕ) (bmin bmax : Vector3) (prev : ℝ)
    (hthr : ¬ |ebThreshold bmin bmax - prev| < 1e-10)
    (hnone : ∀ pv ∈ (ebGridPoints bmin bmax).zip (sdf.evaluate (ebGridPoints bmin bmax)),
      ¬ |pv.2| ≤ ebThreshold bmin bmax) :
    estimateBoundsAux sdf (n + 1) bmin bmax prev =
      estimateBoundsAux sdf n ((bmin + bmax) * (0.5 : ℝ) - (bmax - bmin))
        ((bmin + bmax) * (0.5 : ℝ) + (bmax - bmin)) (ebThreshold bmin bmax) ∧
    ((bmin + bmax) * (0.5 : ℝ) + (bmax - bmin)) -
        ((bmin + bmax) * (0.5 : ℝ) - (bmax - bmin)) = (bmax - bmin) * (2 : ℝ) ∧
    (((bmin + bmax) * (0.5 : ℝ) + (bmax - bmin)) +
        ((bmin + bmax) * (0.5 : ℝ) - (bmax - bmin))) * (0.5 : ℝ) =
      (bmin + bmax) * (0.5 : ℝ) ∧
    estimateBounds sdf = estimateBoundsAux sdf 32 ⟨-10, -10, -10⟩ ⟨10, 10, 10⟩ (-1) := by
  refine ⟨?_, ?_, ?_, rfl⟩
  · have hfil : ebNear sdf bmin bmax = [] := by
      unfold ebNear
      rw [List.filter_eq_nil_iff]
      intro pv hpv
      simp only [decide_eq_true_eq]
      exact hnone pv hpv
    simp only [estimateBoundsAux]
    rw [if_neg hthr, if_pos hfil]
  · ext <;>
      simp only [Vector3.add_x, Vector3.add_y, Vector3.add_z, Vector3.sub_x,
        Vector3.sub_y, Vector3.sub_z, Vector3.smul_x, Vector3.smul_y, Vector3.smul_z] <;>
      ring
  · ext <;>
      simp only [Vector3.add_x, Vector3.add_y, Vector3.add_z, Vector3.sub_x,
        Vector3.sub_y, Vector3.sub_z, Vector3.smul_x, Vector3.smul_y, Vector3.smul_z] <;>
      ring

theorem estimateBounds_expand_witness :
    estimateBoundsAux (constField 1000) 1 ⟨0, 0, 0⟩ ⟨0, 0, 0⟩ 5 =
      estimateBoundsAux (constField 1000) 0
        (((⟨0, 0, 0⟩ : Vector3) + ⟨0, 0, 0⟩) * (0.5 : ℝ) -
          ((⟨0, 0, 0⟩ : Vector3) - ⟨0, 0, 0⟩))
        (((⟨0, 0, 0⟩ : Vector3) + ⟨0, 0, 0⟩) * (0.5 : ℝ) +
          ((⟨0, 0, 0⟩ : Vector3) - ⟨0, 0, 0⟩))
        (ebThreshold ⟨0, 0, 0⟩ ⟨0, 0, 0⟩) := by
  have hthr0 : ebThreshold (⟨0, 0, 0⟩ : Vector3) ⟨0, 0, 0⟩ = 0 := by
    unfold ebThreshold ebStep Vector3.length
    norm_num
  refine (estimateBounds_expand (constField 1000) 0 ⟨0, 0, 0⟩ ⟨0, 0, 0⟩ 5 ?_ ?_).1
  · rw [hthr0]
    norm_num
  · intro pv hpv
    have h2 : pv.2 = 1000 :=
      snd_of_mem_zip_map (ebGridPoints ⟨0, 0, 0⟩ ⟨0, 0, 0⟩) (fun _ => (1000 : ℝ)) pv hpv
    rw [h2, hthr0]
    norm_num

end SDFModel
